import Mathlib

/-!
# Verification of the pydamage orchestrator (`pydamage/main.py`)

A shallow embedding of `pydamage_analyze` from `src/pydamage/main.py`.
The orchestrator's own control flow (grouped vs. per-reference mode, the
falsiness filter on fitter results, the empty-result warning, the pool
sizing, the merge of the two frames, and the CSV hand-off) is translated
directly from the source.  The external collaborators that `main.py` calls
but whose code is not part of this repository snapshot (`utils`, `damage`,
`accuracy_model`, `models`) are modelled from the specification, each
marked `Modelled from the spec:` in its doc comment.  Side effects are
recorded as an explicit event trace in program order.
-/

namespace Pydamage

/-- Reference-sequence identifiers (the keys of the result table). -/
abbrev Ref := Nat

/-- Sequencing mode reported by `utils.prepare_bam` (paired vs. single end). -/
inductive Mode where
  | single
  | paired
  deriving DecidableEq, Repr

/-- Modelled from the spec: the `FitResult` record produced by
`damage.test_damage` (the Damage Model Fitter, `pydamage/damage.py`, not in
the snapshot): reference identifier, reference length, read depth,
coverage, decay parameters and the p-value.  Numeric fields are rationals;
the spec's invariants on their values are not needed by the orchestrator
claims. -/
structure FitResult where
  reference : Ref
  reflen : Nat
  nb_reads_aligned : Nat
  coverage : Rat
  pmax : Rat
  decay : Rat
  pvalue : Rat
  deriving DecidableEq, Repr

/-- One row of a pandas DataFrame: the index entry (a reference identifier)
plus the numeric columns. -/
structure Row where
  idx : Ref
  cols : List Rat
  deriving DecidableEq, Repr

/-- A pandas DataFrame, as the ordered list of its rows. -/
abbrev DF := List Row

/-- Modelled from the spec: `glm_model_params` (`pydamage/models.py`, not in
the snapshot) is a fixed pre-trained set of feature weights and an
intercept, loaded as static configuration. -/
structure GLMParams where
  intercept : Rat
  weights : List Rat
  deriving DecidableEq, Repr

/-- Modelled from the spec: the shipped constant coefficient set.  The
orchestrator only ever passes it through unchanged, so its numeric values
are irrelevant to every claim; what matters is that one fixed constant is
used. -/
def glm_model_params : GLMParams :=
  { intercept := 0, weights := [] }

/-- The keyword arguments of `pydamage_analyze`, with the defaults of the
source signature (`main.py` lines 39-50). -/
structure Args where
  wlen : Nat := 30
  show_al : Bool := false
  process : Nat := 1
  outdir : String := ""
  plot : Bool := false
  verbose : Bool := false
  force : Bool := false
  group : Bool := false
  decimals : Int := -1
  deriving DecidableEq, Repr

/-- The argument record with every keyword left at its default. -/
def defaultArgs : Args := {}

/-- The run environment: the alignment file's content as seen through
`utils.prepare_bam` (its reference list and mode), together with the
external collaborators the orchestrator calls.
`test_damage` takes the arguments `main.py` passes: the reference (`none`
encodes Python's `ref=None`, the all-references merged unit), the mode,
`wlen`, `show_al`, `process` and `verbose`; it returns `none` for a falsy
("no usable data") Python result.  `features` is the Accuracy Predictor's
per-row feature derivation (it may consult the whole table), `score` its
per-row scoring function. -/
structure Env where
  refs : List Ref
  mode : Mode
  test_damage : Option Ref → Mode → Nat → Bool → Nat → Bool → Option FitResult
  features : DF → Row → List Rat
  score : GLMParams → List Rat → Rat

/-- Observable actions of one run, in program order. -/
inductive Event where
  | makedir (dir : String) (force : Bool)
  | poolFit (size : Nat)
  | fitCall (ref : Option Ref)
  | warnEmpty
  | poolPlot (size : Nat)
  | plotCall (res : Option FitResult)
  | glmPredict (input : DF) (params : GLMParams)
  | csvWrite (frame : DF) (decimals : Int)
  deriving DecidableEq, Repr

/-- Is the event a Fitter invocation (`damage.test_damage`)? -/
def Event.isFit : Event → Bool
  | .fitCall _ => true
  | _ => false

/-- Is the event the Accuracy Predictor invocation (`glm_predict`)? -/
def Event.isGlm : Event → Bool
  | .glmPredict _ _ => true
  | _ => false

/-- Is the event the creation of the Fitter worker pool? -/
def Event.isPoolFit : Event → Bool
  | .poolFit _ => true
  | _ => false

/-- Is the event the CSV hand-off (`utils.df_to_csv`)? -/
def Event.isCsv : Event → Bool
  | .csvWrite _ _ => true
  | _ => false

/-- Rounding a rational to the nearest integer (half away from zero for
positive halves), computed on the numerator and denominator:
`⌊x + 1/2⌋ = ⌊(2·num + den) / (2·den)⌋`. -/
def ratRound (x : Rat) : Int :=
  (2 * x.num + (x.den : Int)).fdiv (2 * (x.den : Int))

/-- Modelled from the spec: rounding one numeric value to `d` decimal
places, as `utils.df_to_csv` (`pydamage/utils.py`, not in the snapshot)
does before serialization; a negative `d` (the default `-1`) leaves the
value untouched ("numeric columns *may* be rounded to a configurable
decimal precision"). -/
def roundTo (d : Int) (x : Rat) : Rat :=
  if 0 ≤ d then ((ratRound (x * (10 : Rat) ^ d.toNat) : Int) : Rat) / (10 : Rat) ^ d.toNat
  else x

/-- Rounding applied to every numeric column of every row of a frame. -/
def roundDF (d : Int) (df : DF) : DF :=
  df.map (fun r => { idx := r.idx, cols := r.cols.map (roundTo d) })

/-- Modelled from the spec: the Result Row Builder schema — one
fixed-schema row per `FitResult`, keyed by the reference identifier. -/
def rowOfFit (fr : FitResult) : Row :=
  { idx := fr.reference,
    cols := [(fr.reflen : Rat), (fr.nb_reads_aligned : Rat), fr.coverage,
             fr.pmax, fr.decay, fr.pvalue] }

/-- Modelled from the spec: `utils.pandas_processing` (the Result Row
Builder, `pydamage/utils.py`, not in the snapshot) builds the result frame
from the collected list, one row per usable `FitResult`. -/
def pandas_processing (res : List (Option FitResult)) (_wlen : Nat) : DF :=
  (res.filterMap id).map rowOfFit

/-- Modelled from the spec: `accuracy_model.prepare_data` derives, for
every row of the result frame, a deterministic feature vector (possibly
relative to the whole table), keeping the reference index. -/
def prepare_data (env : Env) (df : DF) : DF :=
  df.map (fun r => { idx := r.idx, cols := env.features df r })

/-- Modelled from the spec: `accuracy_model.glm_predict` computes, for
every row of the prepared frame, one predicted value from the fixed
coefficients, keeping the reference index. -/
def glm_predict (env : Env) (df : DF) (params : GLMParams) : DF :=
  df.map (fun r => { idx := r.idx, cols := [env.score params r.cols] })

/-- The merge `df_glm.merge(df_pydamage, left_index=True, right_index=True)`
of `main.py` line 139: a pandas merge on the index with the default inner
join — each left row is paired with every right row of equal index, and
rows without a partner are dropped. -/
def mergeIndex (l r : DF) : DF :=
  l.flatMap (fun lr =>
    (r.filter (fun rr => rr.idx == lr.idx)).map
      (fun rr => { idx := lr.idx, cols := lr.cols ++ rr.cols }))

/-- The Fitter result for one reference, with the arguments `main.py`
passes to `damage.test_damage` (lines 93-101 and 103-114). -/
def tdOf (env : Env) (a : Args) (ref : Option Ref) : Option FitResult :=
  env.test_damage ref env.mode a.wlen a.show_al a.process a.verbose

/-- The list `filt_res` (`main.py` lines 103-118): in grouped mode the singleton
list holding the raw result of the one `ref=None` invocation; otherwise
the results of `p.imap(test_damage_partial, refs)` with the falsy ones
filtered out. -/
def filtRes (env : Env) (a : Args) : List (Option FitResult) :=
  if a.group then [tdOf env a none]
  else ((env.refs.map (fun r => tdOf env a (some r))).filter (fun i => i.isSome))

/-- The pool size `proc = min(len(refs), process)` (`main.py` line 71). -/
def procOf (env : Env) (a : Args) : Nat :=
  min env.refs.length a.process

/-- The Fitter-phase events: in grouped mode a single synchronous
invocation with `ref=None`; otherwise the worker pool of size `proc` and
one invocation per reference. -/
def fitEvents (env : Env) (a : Args) : List Event :=
  if a.group then [Event.fitCall none]
  else Event.poolFit (procOf env a) :: env.refs.map (fun r => Event.fitCall (some r))

/-- The empty-result warning (`main.py` lines 121-124), emitted exactly
when the filtered result list is empty. -/
def warnEvents (env : Env) (a : Args) : List Event :=
  if (filtRes env a).length = 0 then [Event.warnEmpty] else []

/-- The plotting phase (`main.py` lines 126-133): only when plotting was
requested and at least one result survived. -/
def plotEvents (env : Env) (a : Args) : List Event :=
  if a.plot && !((filtRes env a).length = 0 : Bool) then
    Event.makedir (a.outdir ++ "/plots") false
      :: Event.poolPlot (procOf env a)
      :: (filtRes env a).map Event.plotCall
  else []

/-- The output of one run: the returned DataFrame and the event trace. -/
structure Output where
  df : DF
  trace : List Event
  deriving DecidableEq, Repr

/-- The orchestrator `pydamage_analyze` (`main.py` lines 39-142): prepare the output
directory, fit every reference (or the one merged group), warn when
nothing survived, optionally plot, build the result frame, run the
Accuracy Predictor once, merge the two frames on the index, hand the
(optionally rounded) table to the CSV writer, and return the merged
frame. -/
def pydamage_analyze (env : Env) (a : Args) : Output :=
  let fr := filtRes env a
  let df_pydamage := pandas_processing fr a.wlen
  let prep_df_glm := prepare_data env df_pydamage
  let df_glm := glm_predict env prep_df_glm glm_model_params
  let df := mergeIndex df_glm df_pydamage
  { df := df,
    trace := Event.makedir a.outdir a.force
      :: (fitEvents env a ++ warnEvents env a ++ plotEvents env a
          ++ [Event.glmPredict prep_df_glm glm_model_params,
              Event.csvWrite (roundDF a.decimals df) a.decimals]) }

/-! ## Completion-order model of the worker pool

`multiprocessing.Pool.imap` hands tasks to workers that may finish in any
order, and delivers the results in task order.  The model makes the
nondeterministic completion order explicit: a schedule `σ` lists the task
indices in the order the workers finish them, and `imap` delivers, for
each task index in order, the result that completed for it. -/

/-- The `(task index, result)` pairs in the order the workers completed
them. -/
def completedPairs (σ : List Nat) (g : Nat → α) : List (Nat × α) :=
  σ.map (fun j => (j, g j))

/-- The list `imap` delivers: for each task index `0, …, n-1` in order,
the completed result for that index (skipped if the schedule never
completed it). -/
def imapModel (σ : List Nat) (g : Nat → α) (n : Nat) : List α :=
  (List.range n).filterMap (fun i => (completedPairs σ g).lookup i)

/-- The per-reference Fitter task for task index `i`. -/
def fitTask (env : Env) (a : Args) (i : Nat) : Option FitResult :=
  tdOf env a (some (env.refs.getD i 0))

/-- The list `filt_res` under an explicit completion schedule `σ` of the Fitter
pool (grouped mode has no pool and ignores the schedule). -/
def filtResSched (env : Env) (a : Args) (σ : List Nat) : List (Option FitResult) :=
  if a.group then [tdOf env a none]
  else (imapModel σ (fitTask env a) env.refs.length).filter (fun i => i.isSome)

/-- The Fitter-phase events under a completion schedule: the invocations
are observed in the order the workers finish them. -/
def fitEventsSched (env : Env) (a : Args) (σ : List Nat) : List Event :=
  if a.group then [Event.fitCall none]
  else Event.poolFit (procOf env a) :: σ.map (fun j => Event.fitCall (some (env.refs.getD j 0)))

/-- The orchestrator `pydamage_analyze` under an explicit completion schedule of the Fitter
worker pool: identical to `pydamage_analyze` except that the pool's
results are collected through `imapModel σ` and the Fitter invocations are
observed in completion order. -/
def pydamage_analyze_sched (env : Env) (a : Args) (σ : List Nat) : Output :=
  let fr := filtResSched env a σ
  let df_pydamage := pandas_processing fr a.wlen
  let prep_df_glm := prepare_data env df_pydamage
  let df_glm := glm_predict env prep_df_glm glm_model_params
  let df := mergeIndex df_glm df_pydamage
  { df := df,
    trace := Event.makedir a.outdir a.force
      :: (fitEventsSched env a σ
          ++ (if fr.length = 0 then [Event.warnEmpty] else [])
          ++ (if a.plot && !(fr.length = 0 : Bool) then
                Event.makedir (a.outdir ++ "/plots") false
                  :: Event.poolPlot (procOf env a)
                  :: fr.map Event.plotCall
              else [])
          ++ [Event.glmPredict prep_df_glm glm_model_params,
              Event.csvWrite (roundDF a.decimals df) a.decimals]) }

/-! ## Sample environments (concrete instances used by the witnesses) -/

/-- A concrete usable fit result for reference `r`. -/
def sampleFit (r : Ref) : FitResult :=
  { reference := r, reflen := 1000, nb_reads_aligned := 50, coverage := 2,
    pmax := 1, decay := 1, pvalue := 0 }

/-- A sample alignment environment with two references, both usable; the
grouped invocation is usable as well. -/
def sampleEnv : Env :=
  { refs := [0, 1],
    mode := Mode.single,
    test_damage := fun or _ _ _ _ _ =>
      or.elim (some (sampleFit 0)) (fun r => if r < 2 then some (sampleFit r) else none),
    features := fun _ r => r.cols,
    score := fun p f => p.intercept + f.headD 0 }

/-- A sample environment whose references all yield the "no usable data"
signal (an alignment file with no aligned reads), including the grouped
invocation. -/
def emptyEnv : Env :=
  { refs := [0, 1],
    mode := Mode.single,
    test_damage := fun _ _ _ _ _ _ => none,
    features := fun _ r => r.cols,
    score := fun p f => p.intercept + f.headD 0 }

/-- Every Fitter invocation in the trace happens strictly before every
Accuracy Predictor invocation. -/
def fitsBeforeGlms (t : List Event) : Prop :=
  ∀ i j, (hi : i < t.length) → (hj : j < t.length) →
    (t.get ⟨i, hi⟩).isFit = true → (t.get ⟨j, hj⟩).isGlm = true → i < j

/-- A well-formed Fitter labels each per-reference result with the
reference it was invoked for. -/
def FitterLabelsOk (env : Env) (a : Args) : Prop :=
  ∀ r fr, tdOf env a (some r) = some fr → fr.reference = r

/-- Arguments requesting grouped mode. -/
def groupedArgs : Args := { group := true }

/-- Arguments requesting rounding to two decimal places. -/
def roundArgs : Args := { decimals := 2 }

/-! ## Helper lemmas -/

/-- The program phase an event belongs to: directory setup and Fitter
fan-out come first, then the empty-result warning, plotting, the Accuracy
Predictor, and last the CSV hand-off. -/
def Event.phase : Event → Nat
  | .makedir _ _ => 0
  | .poolFit _ => 1
  | .fitCall _ => 1
  | .warnEmpty => 2
  | .poolPlot _ => 3
  | .plotCall _ => 3
  | .glmPredict _ _ => 4
  | .csvWrite _ _ => 5

theorem mem_fitEvents_phase {env : Env} {a : Args} {e : Event}
    (h : e ∈ fitEvents env a) : e.phase = 1 := by
  unfold fitEvents at h
  by_cases hg : a.group
  · simp [hg] at h
    subst h; rfl
  · simp [hg] at h
    rcases h with h | ⟨r, _, h⟩ <;> subst h <;> rfl

theorem mem_warnEvents_eq {env : Env} {a : Args} {e : Event}
    (h : e ∈ warnEvents env a) : e = Event.warnEmpty := by
  unfold warnEvents at h
  by_cases hz : (filtRes env a).length = 0
  · simp [hz] at h; exact h
  · simp [hz] at h

theorem mem_plotEvents_phase {env : Env} {a : Args} {e : Event}
    (h : e ∈ plotEvents env a) : e.phase = 0 ∨ e.phase = 3 := by
  unfold plotEvents at h
  by_cases hc : (a.plot && !((filtRes env a).length = 0 : Bool)) = true
  · rw [if_pos hc] at h
    rcases List.mem_cons.mp h with h | h
    · subst h; exact Or.inl rfl
    · rcases List.mem_cons.mp h with h | h
      · subst h; exact Or.inr rfl
      · rcases List.mem_map.mp h with ⟨o, _, h⟩
        subst h; exact Or.inr rfl
  · rw [if_neg hc] at h
    simp at h

/-- Every event strictly before the Accuracy Predictor invocation in the
trace belongs to phases 0-3. -/
theorem mem_traceFront_phase {env : Env} {a : Args} {e : Event}
    (h : e ∈ Event.makedir a.outdir a.force
          :: (fitEvents env a ++ warnEvents env a ++ plotEvents env a)) :
    e.phase ≤ 3 := by
  rcases List.mem_cons.mp h with h | h
  · subst h; exact Nat.zero_le 3
  · rcases List.mem_append.mp h with h | h
    · rcases List.mem_append.mp h with h | h
      · have := mem_fitEvents_phase h; omega
      · rw [mem_warnEvents_eq h]; decide
    · rcases mem_plotEvents_phase h with h | h <;> omega

/-- The trace of a run, decomposed into the pre-Predictor front and the
two final events. -/
theorem trace_decomp (env : Env) (a : Args) :
    (pydamage_analyze env a).trace =
      (Event.makedir a.outdir a.force
        :: (fitEvents env a ++ warnEvents env a ++ plotEvents env a))
      ++ [Event.glmPredict (prepare_data env (pandas_processing (filtRes env a) a.wlen))
            glm_model_params,
          Event.csvWrite
            (roundDF a.decimals (pydamage_analyze env a).df) a.decimals] := by
  simp [pydamage_analyze, List.cons_append, List.append_assoc]

theorem fitsBeforeGlms_append {u v : List Event}
    (hu : ∀ e ∈ u, e.isGlm = false) (hv : ∀ e ∈ v, e.isFit = false) :
    fitsBeforeGlms (u ++ v) := by
  intro i j hi hj hf hg
  rw [List.get_eq_getElem] at hf hg
  have hiu : i < u.length := by
    by_contra hge
    push_neg at hge
    have hjv : (u ++ v)[i] ∈ v := by
      rw [List.getElem_append_right hge]
      exact List.getElem_mem _
    rw [hv _ hjv] at hf
    exact Bool.false_ne_true hf
  have hju : u.length ≤ j := by
    by_contra hlt
    push_neg at hlt
    have hmem : (u ++ v)[j] ∈ u := by
      rw [List.getElem_append_left hlt]
      exact List.getElem_mem _
    rw [hu _ hmem] at hg
    exact Bool.false_ne_true hg
  omega

theorem countP_eq_zero_of_mem {p : Event → Bool} {l : List Event}
    (h : ∀ e ∈ l, p e = false) : l.countP p = 0 := by
  rw [List.countP_eq_zero]
  intro e he
  simp [h e he]

theorem mem_mergeIndex {l r : DF} {row : Row} (h : row ∈ mergeIndex l r) :
    ∃ lr ∈ l, ∃ rr ∈ r, rr.idx = lr.idx ∧
      row = { idx := lr.idx, cols := lr.cols ++ rr.cols } := by
  unfold mergeIndex at h
  rcases List.mem_flatMap.mp h with ⟨lr, hlr, hmem⟩
  rcases List.mem_map.mp hmem with ⟨rr, hrr, heq⟩
  have hrr' := List.mem_filter.mp hrr
  refine ⟨lr, hlr, rr, hrr'.1, ?_, heq.symm⟩
  exact of_decide_eq_true hrr'.2

theorem mergeIndex_skip {L : DF} {r : Row} {R : DF}
    (h : ∀ l ∈ L, l.idx ≠ r.idx) : mergeIndex L (r :: R) = mergeIndex L R := by
  induction L with
  | nil => rfl
  | cons l L ih =>
    unfold mergeIndex at ih ⊢
    rw [List.flatMap_cons, List.flatMap_cons]
    have hne : (r.idx == l.idx) = false := by
      simp only [beq_eq_false_iff_ne, ne_eq]
      exact fun hc => h l (List.mem_cons_self l L) (hc ▸ rfl)
    rw [List.filter_cons_of_neg (by simp [hne]),
        ih (fun x hx => h x (List.mem_cons_of_mem l hx))]

theorem mergeIndex_zipWith {L R : DF}
    (hidx : L.map Row.idx = R.map Row.idx) (hnd : (R.map Row.idx).Nodup) :
    mergeIndex L R =
      List.zipWith (fun l r => { idx := l.idx, cols := l.cols ++ r.cols }) L R := by
  induction L generalizing R with
  | nil =>
    have : R = [] := List.map_eq_nil_iff.mp hidx.symm
    subst this; rfl
  | cons l L ih =>
    cases R with
    | nil => simp at hidx
    | cons r R =>
      simp only [List.map_cons, List.cons.injEq] at hidx
      obtain ⟨hlr, htl⟩ := hidx
      simp only [List.map_cons, List.nodup_cons] at hnd
      obtain ⟨hnotin, hndR⟩ := hnd
      unfold mergeIndex
      rw [List.flatMap_cons]
      have hfilt : (r :: R).filter (fun rr => rr.idx == l.idx) = [r] := by
        rw [List.filter_cons_of_pos (by simp [hlr]), List.filter_eq_nil_iff.mpr]
        intro rr hrr
        simp only [beq_iff_eq]
        intro hc
        apply hnotin
        have hmem1 : rr.idx ∈ R.map Row.idx := List.mem_map_of_mem Row.idx hrr
        rwa [hc, hlr] at hmem1
      rw [hfilt]
      have hmerge : (L.flatMap fun lr =>
          List.map (fun rr => { idx := lr.idx, cols := lr.cols ++ rr.cols })
            (List.filter (fun rr => rr.idx == lr.idx) (r :: R))) = mergeIndex L R := by
        refine mergeIndex_skip (fun x hx hc => ?_)
        have hx' : x.idx ∈ R.map Row.idx := by
          rw [← htl]
          exact List.mem_map_of_mem Row.idx hx
        exact hnotin (hc ▸ hx')
      rw [List.zipWith_cons_cons, ← ih htl hndR, hmerge]
      rfl

theorem filter_isSome_filterMap {α : Type} (l : List (Option α)) :
    (l.filter (fun i => i.isSome)).filterMap id = l.filterMap id := by
  induction l with
  | nil => rfl
  | cons o t ih =>
    cases o with
    | none => simpa using ih
    | some a => simpa using ih

/-- The usable fit results of a per-reference run, as a `filterMap` over
the reference list. -/
theorem filtRes_filterMap {env : Env} {a : Args} (hg : a.group = false) :
    (filtRes env a).filterMap id = env.refs.filterMap (fun r => tdOf env a (some r)) := by
  unfold filtRes
  rw [hg]
  simp only [Bool.false_eq_true, if_false]
  rw [filter_isSome_filterMap, List.filterMap_map]
  rfl

theorem mem_fits_mem_refs {env : Env} {a : Args} (hwf : FitterLabelsOk env a)
    {fr : FitResult} (h : fr ∈ env.refs.filterMap (fun r => tdOf env a (some r))) :
    fr.reference ∈ env.refs ∧ tdOf env a (some fr.reference) = some fr := by
  rcases List.mem_filterMap.mp h with ⟨r, hr, hfr⟩
  have := hwf r fr hfr
  subst this
  exact ⟨hr, hfr⟩

theorem labelled_filterMap_nodup (td : Ref → Option FitResult)
    (hwf : ∀ r fr, td r = some fr → fr.reference = r) :
    ∀ l : List Ref, l.Nodup → ((l.filterMap td).map FitResult.reference).Nodup := by
  intro l
  induction l with
  | nil => simp
  | cons r rest ih =>
    intro hnd
    rw [List.nodup_cons] at hnd
    obtain ⟨hnotin, hndr⟩ := hnd
    rw [List.filterMap_cons]
    cases hr : td r with
    | none => exact ih hndr
    | some fr =>
      rw [List.map_cons, List.nodup_cons]
      refine ⟨?_, ih hndr⟩
      intro hmem
      rcases List.mem_map.mp hmem with ⟨fr', hfr', heq⟩
      rcases List.mem_filterMap.mp hfr' with ⟨r', hr', htd⟩
      have h1 := hwf r' fr' htd
      have h2 := hwf r fr hr
      rw [h1, h2] at heq
      exact hnotin (heq ▸ hr')

theorem fits_reference_nodup {env : Env} {a : Args} (hwf : FitterLabelsOk env a)
    (hnd : env.refs.Nodup) :
    ((env.refs.filterMap (fun r => tdOf env a (some r))).map FitResult.reference).Nodup :=
  labelled_filterMap_nodup (fun r => tdOf env a (some r)) (fun r fr h => hwf r fr h)
    env.refs hnd

theorem prepare_data_idx (env : Env) (df : DF) :
    (prepare_data env df).map Row.idx = df.map Row.idx := by
  unfold prepare_data
  rw [List.map_map]
  rfl

theorem glm_predict_idx (env : Env) (df : DF) (p : GLMParams) :
    (glm_predict env df p).map Row.idx = df.map Row.idx := by
  unfold glm_predict
  rw [List.map_map]
  rfl

theorem pandas_processing_idx (res : List (Option FitResult)) (w : Nat) :
    (pandas_processing res w).map Row.idx = (res.filterMap id).map FitResult.reference := by
  unfold pandas_processing
  rw [List.map_map]
  rfl

theorem lookup_completedPairs {α : Type} (σ : List Nat) (g : Nat → α) (i : Nat)
    (h : i ∈ σ) : (completedPairs σ g).lookup i = some (g i) := by
  induction σ with
  | nil => simp at h
  | cons a σ ih =>
    unfold completedPairs at ih ⊢
    rw [List.map_cons]
    by_cases hia : i = a
    · subst hia
      simp [List.lookup]
    · have hbeq : (i == a) = false := by simpa using hia
      simp only [List.lookup, hbeq]
      exact ih (List.mem_of_ne_of_mem hia h)

theorem filterMap_eq_map_of_some {α β : Type} {l : List β} {f : β → Option α}
    {g : β → α} (h : ∀ i ∈ l, f i = some (g i)) : l.filterMap f = l.map g := by
  induction l with
  | nil => rfl
  | cons b t ih =>
    rw [List.filterMap_cons, h b (List.mem_cons_self b t), List.map_cons,
        ih (fun i hi => h i (List.mem_cons_of_mem b hi))]

theorem imapModel_complete {α : Type} (σ : List Nat) (g : Nat → α) (n : Nat)
    (h : ∀ i < n, i ∈ σ) : imapModel σ g n = (List.range n).map g := by
  unfold imapModel
  refine filterMap_eq_map_of_some (fun i hi => ?_)
  exact lookup_completedPairs σ g i (h i (List.mem_range.mp hi))

theorem range_map_fitTask (env : Env) (a : Args) :
    (List.range env.refs.length).map (fitTask env a)
      = env.refs.map (fun r => tdOf env a (some r)) := by
  refine List.ext_getElem (by simp) (fun i h₁ h₂ => ?_)
  simp only [List.getElem_map, List.getElem_range]
  unfold fitTask
  rw [List.getD_eq_getElem env.refs 0 (by simpa using h₂)]

theorem filtResSched_eq_filtRes {env : Env} {a : Args} {σ : List Nat}
    (h : ∀ i < env.refs.length, i ∈ σ) : filtResSched env a σ = filtRes env a := by
  unfold filtResSched filtRes
  by_cases hg : a.group
  · simp [hg]
  · simp only [hg, Bool.false_eq_true, if_false]
    rw [imapModel_complete σ (fitTask env a) env.refs.length h, range_map_fitTask]

theorem sched_df_eq {env : Env} {a : Args} {σ : List Nat}
    (h : ∀ i < env.refs.length, i ∈ σ) :
    (pydamage_analyze_sched env a σ).df = (pydamage_analyze env a).df := by
  unfold pydamage_analyze_sched pydamage_analyze
  rw [filtResSched_eq_filtRes h]

theorem phase_of_isGlm {e : Event} (h : e.isGlm = true) : e.phase = 4 := by
  cases e <;> first | rfl | simp [Event.isGlm] at h

theorem phase_of_isCsv {e : Event} (h : e.isCsv = true) : e.phase = 5 := by
  cases e <;> first | rfl | simp [Event.isCsv] at h

theorem mem_fitEvents_shape {env : Env} {a : Args} {e : Event}
    (h : e ∈ fitEvents env a) :
    e = Event.poolFit (procOf env a) ∨ ∃ o, e = Event.fitCall o := by
  unfold fitEvents at h
  by_cases hg : a.group
  · rw [if_pos hg] at h
    rcases List.mem_cons.mp h with h | h
    · exact Or.inr ⟨none, h⟩
    · simp at h
  · rw [if_neg hg] at h
    rcases List.mem_cons.mp h with h | h
    · exact Or.inl h
    · rcases List.mem_map.mp h with ⟨r, _, hr⟩
      exact Or.inr ⟨some r, hr.symm⟩

theorem mem_plotEvents_shape {env : Env} {a : Args} {e : Event}
    (h : e ∈ plotEvents env a) :
    e = Event.makedir (a.outdir ++ "/plots") false
      ∨ e = Event.poolPlot (procOf env a)
      ∨ ∃ o, e = Event.plotCall o := by
  unfold plotEvents at h
  by_cases hc : (a.plot && !((filtRes env a).length = 0 : Bool)) = true
  · rw [if_pos hc] at h
    rcases List.mem_cons.mp h with h | h
    · exact Or.inl h
    · rcases List.mem_cons.mp h with h | h
      · exact Or.inr (Or.inl h)
      · rcases List.mem_map.mp h with ⟨o, _, ho⟩
        exact Or.inr (Or.inr ⟨o, ho.symm⟩)
  · rw [if_neg hc] at h
    simp at h

theorem mem_traceFront_no_glm {env : Env} {a : Args} {e : Event}
    (h : e ∈ Event.makedir a.outdir a.force
          :: (fitEvents env a ++ warnEvents env a ++ plotEvents env a)) :
    e.isGlm = false := by
  cases hb : e.isGlm
  · rfl
  · exfalso
    have h4 := phase_of_isGlm hb
    have h3 := mem_traceFront_phase h
    omega

theorem mem_traceFront_no_csv {env : Env} {a : Args} {e : Event}
    (h : e ∈ Event.makedir a.outdir a.force
          :: (fitEvents env a ++ warnEvents env a ++ plotEvents env a)) :
    e.isCsv = false := by
  cases hb : e.isCsv
  · rfl
  · exfalso
    have h5 := phase_of_isCsv hb
    have h3 := mem_traceFront_phase h
    omega

/-! ## Claims -/

/-- C2: for every pair of values of the `decimals` parameter, with all
other arguments and the alignment environment held fixed, the DataFrame
returned by `pydamage_analyze` is identical — `decimals` influences only
the CSV hand-off, never the merged frame that is built and returned. -/
theorem decimals_df_invariant (env : Env) (a : Args) (d₁ d₂ : Int) :
    (pydamage_analyze env { a with decimals := d₁ }).df
      = (pydamage_analyze env { a with decimals := d₂ }).df := rfl

/-- C5: in per-reference mode, the Fitter worker pool is created with
exactly `min(number of references, user-configured process count)`
workers, and no other Fitter pool is created. -/
theorem fitter_pool_size (env : Env) (a : Args) (hg : a.group = false) :
    Event.poolFit (min env.refs.length a.process) ∈ (pydamage_analyze env a).trace
    ∧ ∀ s, Event.poolFit s ∈ (pydamage_analyze env a).trace →
        s = min env.refs.length a.process := by
  constructor
  · rw [trace_decomp]
    refine List.mem_append_left _ (List.mem_cons_of_mem _ ?_)
    refine List.mem_append_left _ (List.mem_append_left _ ?_)
    unfold fitEvents
    rw [hg]
    simp only [Bool.false_eq_true, if_false]
    exact List.mem_cons_self _ _
  · intro s hs
    rw [trace_decomp] at hs
    rcases List.mem_append.mp hs with hs | hs
    · rcases List.mem_cons.mp hs with hs | hs
      · exact absurd hs (by simp)
      · rcases List.mem_append.mp hs with hs | hs
        · rcases List.mem_append.mp hs with hs | hs
          · rcases mem_fitEvents_shape hs with hs | ⟨o, hs⟩
            · exact (Event.poolFit.injEq _ _).mp hs
            · exact absurd hs (by simp)
          · exact absurd (mem_warnEvents_eq hs) (by simp)
        · rcases mem_plotEvents_shape hs with hs | hs | ⟨o, hs⟩ <;>
            exact absurd hs (by simp)
    · rcases List.mem_cons.mp hs with hs | hs
      · exact absurd hs (by simp)
      · rcases List.mem_cons.mp hs with hs | hs
        · exact absurd hs (by simp)
        · simp at hs

/-- Witness for C5: on the two-reference sample environment with the
default one process, the Fitter pool has `min 2 1 = 1` worker. -/
theorem fitter_pool_size_witness :
    Event.poolFit (min sampleEnv.refs.length defaultArgs.process)
        ∈ (pydamage_analyze sampleEnv defaultArgs).trace
    ∧ ∀ s, Event.poolFit s ∈ (pydamage_analyze sampleEnv defaultArgs).trace →
        s = min sampleEnv.refs.length defaultArgs.process :=
  fitter_pool_size sampleEnv defaultArgs rfl

/-- C6: in grouped mode there is exactly one Fitter invocation, it is the
`ref=None` (all references merged) invocation, and no Fitter worker pool
is created — the fit runs synchronously. -/
theorem grouped_single_fit (env : Env) (a : Args) (hg : a.group = true) :
    ((pydamage_analyze env a).trace.countP Event.isFit = 1)
    ∧ Event.fitCall none ∈ (pydamage_analyze env a).trace
    ∧ ∀ e ∈ (pydamage_analyze env a).trace, e.isPoolFit = false := by
  have hfe : fitEvents env a = [Event.fitCall none] := by
    unfold fitEvents; rw [hg]; simp
  refine ⟨?_, ?_, ?_⟩
  · rw [trace_decomp]
    rw [List.countP_append, List.countP_cons, List.countP_append,
        List.countP_append, hfe]
    have hwz : (warnEvents env a).countP Event.isFit = 0 :=
      countP_eq_zero_of_mem (fun e he => by rw [mem_warnEvents_eq he]; rfl)
    have hpz : (plotEvents env a).countP Event.isFit = 0 :=
      countP_eq_zero_of_mem (fun e he => by
        rcases mem_plotEvents_shape he with h | h | ⟨o, h⟩ <;> subst h <;> rfl)
    rw [hwz, hpz]
    simp [Event.isFit, List.countP_cons]
  · rw [trace_decomp]
    refine List.mem_append_left _ (List.mem_cons_of_mem _ ?_)
    refine List.mem_append_left _ (List.mem_append_left _ ?_)
    rw [hfe]
    exact List.mem_cons_self _ _
  · intro e he
    rw [trace_decomp] at he
    rcases List.mem_append.mp he with he | he
    · rcases List.mem_cons.mp he with he | he
      · subst he; rfl
      · rcases List.mem_append.mp he with he | he
        · rcases List.mem_append.mp he with he | he
          · rw [hfe] at he
            rcases List.mem_cons.mp he with he | he
            · subst he; rfl
            · simp at he
          · rw [mem_warnEvents_eq he]; rfl
        · rcases mem_plotEvents_shape he with h | h | ⟨o, h⟩ <;> subst h <;> rfl
    · rcases List.mem_cons.mp he with he | he
      · subst he; rfl
      · rcases List.mem_cons.mp he with he | he
        · subst he; rfl
        · simp at he

/-- Witness for C6: a grouped run on the sample environment. -/
theorem grouped_single_fit_witness :
    ((pydamage_analyze sampleEnv groupedArgs).trace.countP Event.isFit = 1)
    ∧ Event.fitCall none ∈ (pydamage_analyze sampleEnv groupedArgs).trace
    ∧ ∀ e ∈ (pydamage_analyze sampleEnv groupedArgs).trace, e.isPoolFit = false :=
  grouped_single_fit sampleEnv groupedArgs rfl

/-- C10: in grouped mode the collected result list always has length 1
(the raw result is placed there without the falsiness filter), so the
empty-result warning is never emitted in grouped mode. -/
theorem grouped_skips_empty_warning (env : Env) (a : Args) (hg : a.group = true) :
    (filtRes env a).length = 1
    ∧ Event.warnEmpty ∉ (pydamage_analyze env a).trace := by
  have hlen : (filtRes env a).length = 1 := by
    unfold filtRes; rw [hg]; simp
  refine ⟨hlen, ?_⟩
  intro hmem
  rw [trace_decomp] at hmem
  rcases List.mem_append.mp hmem with h | h
  · rcases List.mem_cons.mp h with h | h
    · simp at h
    · rcases List.mem_append.mp h with h | h
      · rcases List.mem_append.mp h with h | h
        · rcases mem_fitEvents_shape h with h | ⟨o, h⟩ <;> simp at h
        · unfold warnEvents at h
          rw [hlen] at h
          simp at h
      · rcases mem_plotEvents_shape h with h | h | ⟨o, h⟩ <;> simp at h
  · rcases List.mem_cons.mp h with h | h
    · simp at h
    · rcases List.mem_cons.mp h with h | h
      · simp at h
      · simp at h

/-- Witness for C10: a grouped run on the environment whose grouped
invocation itself returns the "no usable data" signal — the collected
list still has length 1 and no warning is emitted. -/
theorem grouped_skips_empty_warning_witness :
    (filtRes emptyEnv groupedArgs).length = 1
    ∧ Event.warnEmpty ∉ (pydamage_analyze emptyEnv groupedArgs).trace :=
  grouped_skips_empty_warning emptyEnv groupedArgs rfl

/-- C4: in per-reference mode, when every reference yields the "no usable
data" signal (an alignment file whose references have no usable aligned
reads), the run emits the `PyDamageWarning` exactly once and completes,
returning an empty final table. -/
theorem empty_result_warning (env : Env) (a : Args) (hg : a.group = false)
    (_hlen : 0 < env.refs.length)
    (hnone : ∀ r, tdOf env a (some r) = none) :
    (pydamage_analyze env a).trace.countP (fun e => e == Event.warnEmpty) = 1
    ∧ (pydamage_analyze env a).df = [] := by
  have hfe : filtRes env a = [] := by
    unfold filtRes
    rw [hg]
    simp only [Bool.false_eq_true, if_false]
    rw [List.filter_eq_nil_iff]
    intro x hx
    rcases List.mem_map.mp hx with ⟨r, _, hr⟩
    rw [← hr, hnone r]
    simp
  constructor
  · rw [trace_decomp]
    rw [List.countP_append, List.countP_cons, List.countP_append, List.countP_append]
    have hfz : (fitEvents env a).countP (fun e => e == Event.warnEmpty) = 0 :=
      countP_eq_zero_of_mem (fun e he => by
        rcases mem_fitEvents_shape he with h | ⟨o, h⟩ <;> subst h <;> rfl)
    have hwz : (warnEvents env a).countP (fun e => e == Event.warnEmpty) = 1 := by
      unfold warnEvents
      rw [hfe]
      simp
    have hpz : (plotEvents env a).countP (fun e => e == Event.warnEmpty) = 0 := by
      unfold plotEvents
      rw [hfe]
      simp
    rw [hfz, hwz, hpz]
    simp
  · show mergeIndex _ _ = []
    rw [hfe]
    rfl

/-- Witness for C4: the two-reference environment in which no reference
has usable aligned reads. -/
theorem empty_result_warning_witness :
    (pydamage_analyze emptyEnv defaultArgs).trace.countP
        (fun e => e == Event.warnEmpty) = 1
    ∧ (pydamage_analyze emptyEnv defaultArgs).df = [] :=
  empty_result_warning emptyEnv defaultArgs rfl (by decide) (fun r => rfl)

/-- C3: in per-reference mode, a reference whose Fitter invocation returns
the "no usable data" signal is excluded from the collected result list
(the falsy value is filtered out), and no row of the final table carries
that reference's identifier. -/
theorem falsy_fit_excluded (env : Env) (a : Args) (r : Ref)
    (hg : a.group = false) (hwf : FitterLabelsOk env a)
    (hnone : tdOf env a (some r) = none) :
    none ∉ filtRes env a
    ∧ ∀ row ∈ (pydamage_analyze env a).df, row.idx ≠ r := by
  constructor
  · intro hmem
    unfold filtRes at hmem
    rw [hg] at hmem
    simp only [Bool.false_eq_true, if_false] at hmem
    have := (List.mem_filter.mp hmem).2
    simp at this
  · intro row hrow heq
    have hmm := mem_mergeIndex hrow
    rcases hmm with ⟨lr, _, rr, hrr, hidx, hroweq⟩
    have hrowidx : row.idx = rr.idx := by rw [hroweq, hidx]
    rcases List.mem_map.mp hrr with ⟨fr, hfr, hfrr⟩
    have hfr' : fr ∈ env.refs.filterMap (fun r => tdOf env a (some r)) := by
      rw [← filtRes_filterMap hg]
      rcases List.mem_filterMap.mp hfr with ⟨o, ho, hid⟩
      exact List.mem_filterMap.mpr ⟨o, ho, hid⟩
    have hfit := (mem_fits_mem_refs hwf hfr').2
    have hrid : rr.idx = fr.reference := by rw [← hfrr]; rfl
    rw [heq] at hrowidx
    have hr2 : r = fr.reference := by rw [hrowidx, hrid]
    rw [hr2, hfit] at hnone
    exact Option.noConfusion hnone

/-- Witness for C3: reference 5 of the sample environment (outside the
usable range) yields no data and is absent from the final table. -/
theorem falsy_fit_excluded_witness :
    none ∉ filtRes sampleEnv defaultArgs
    ∧ ∀ row ∈ (pydamage_analyze sampleEnv defaultArgs).df, row.idx ≠ 5 :=
  falsy_fit_excluded sampleEnv defaultArgs 5 rfl
    (fun r fr h => by
      unfold tdOf at h
      simp only [sampleEnv, Option.elim] at h
      by_cases hr : r < 2
      · rw [if_pos hr] at h
        cases h
        rfl
      · rw [if_neg hr] at h
        exact Option.noConfusion h)
    rfl

/-- C9: the Accuracy Predictor is invoked exactly once per run, over the
prepared frame derived from the full collected result table and with the
fixed `glm_model_params`, and every Fitter invocation in the trace occurs
strictly before it. -/
theorem glm_after_all_fits (env : Env) (a : Args) :
    ((pydamage_analyze env a).trace.countP Event.isGlm = 1)
    ∧ Event.glmPredict (prepare_data env (pandas_processing (filtRes env a) a.wlen))
        glm_model_params ∈ (pydamage_analyze env a).trace
    ∧ fitsBeforeGlms (pydamage_analyze env a).trace := by
  refine ⟨?_, ?_, ?_⟩
  · rw [trace_decomp, List.countP_append]
    have h0 : (Event.makedir a.outdir a.force
        :: (fitEvents env a ++ warnEvents env a ++ plotEvents env a)).countP
          Event.isGlm = 0 :=
      countP_eq_zero_of_mem (fun e he => mem_traceFront_no_glm he)
    rw [h0]
    simp [List.countP_cons, Event.isGlm]
  · rw [trace_decomp]
    exact List.mem_append_right _ (List.mem_cons_self _ _)
  · rw [trace_decomp]
    refine fitsBeforeGlms_append (fun e he => mem_traceFront_no_glm he) ?_
    intro e he
    rcases List.mem_cons.mp he with h | h
    · subst h; rfl
    · rcases List.mem_cons.mp h with h | h
      · subst h; rfl
      · simp at h

/-- C1: every run hands exactly one frame to the CSV writer; that frame
is the returned table with every numeric column rounded at the precision
given by the caller's `decimals` parameter (whose default is `-1`), so
when `decimals ≥ 0` every value of the handed-off frame is an integer
multiple of `10^(-decimals)` — the rounding is applied before the hand-off
to the external writer. -/
theorem csv_handoff_rounded (env : Env) (a : Args) :
    (Event.csvWrite (roundDF a.decimals (pydamage_analyze env a).df) a.decimals
        ∈ (pydamage_analyze env a).trace)
    ∧ (∀ f d, Event.csvWrite f d ∈ (pydamage_analyze env a).trace →
        f = roundDF a.decimals (pydamage_analyze env a).df ∧ d = a.decimals)
    ∧ (0 ≤ a.decimals →
        ∀ row ∈ roundDF a.decimals (pydamage_analyze env a).df, ∀ x ∈ row.cols,
          ∃ n : Int, x * (10 : Rat) ^ a.decimals.toNat = (n : Rat))
    ∧ defaultArgs.decimals = -1 := by
  refine ⟨?_, ?_, ?_, rfl⟩
  · rw [trace_decomp]
    refine List.mem_append_right _ ?_
    exact List.mem_cons_of_mem _ (List.mem_cons_self _ _)
  · intro f d hmem
    rw [trace_decomp] at hmem
    rcases List.mem_append.mp hmem with h | h
    · have := mem_traceFront_no_csv h
      simp [Event.isCsv] at this
    · rcases List.mem_cons.mp h with h | h
      · exact absurd h (by simp)
      · rcases List.mem_cons.mp h with h | h
        · have h1 := (Event.csvWrite.injEq _ _ _ _).mp h
          exact ⟨h1.1, h1.2⟩
        · simp at h
  · intro hd row hrow x hx
    unfold roundDF at hrow
    rcases List.mem_map.mp hrow with ⟨r0, _, hr0⟩
    rw [← hr0] at hx
    rcases List.mem_map.mp hx with ⟨y, _, hy⟩
    refine ⟨ratRound (y * (10 : Rat) ^ a.decimals.toNat), ?_⟩
    rw [← hy]
    unfold roundTo
    rw [if_pos hd]
    exact div_mul_cancel₀ _ (pow_ne_zero _ (by norm_num))

/-- Witness for C1: a run with `decimals = 2`; the handed-off frame is in
the trace and all its values are integer multiples of `1/100`. -/
theorem csv_handoff_rounded_witness :
    (Event.csvWrite
        (roundDF roundArgs.decimals (pydamage_analyze sampleEnv roundArgs).df)
        roundArgs.decimals ∈ (pydamage_analyze sampleEnv roundArgs).trace)
    ∧ (∀ row ∈ roundDF roundArgs.decimals (pydamage_analyze sampleEnv roundArgs).df,
        ∀ x ∈ row.cols,
          ∃ n : Int, x * (10 : Rat) ^ roundArgs.decimals.toNat = (n : Rat)) :=
  ⟨(csv_handoff_rounded sampleEnv roundArgs).1,
   (csv_handoff_rounded sampleEnv roundArgs).2.2.1 (by decide)⟩

/-- C8: the returned table does not depend on the order in which the pool
workers complete: two runs on the same alignment environment and
configuration, under any two completion schedules of the worker pool,
return the same DataFrame (the pool delivers results in task order). -/
theorem schedule_independent_df (env : Env) (a : Args) (σ₁ σ₂ : List Nat)
    (h₁ : σ₁.Perm (List.range env.refs.length))
    (h₂ : σ₂.Perm (List.range env.refs.length)) :
    (pydamage_analyze_sched env a σ₁).df = (pydamage_analyze_sched env a σ₂).df := by
  have m₁ : ∀ i < env.refs.length, i ∈ σ₁ := fun i hi =>
    h₁.mem_iff.mpr (List.mem_range.mpr hi)
  have m₂ : ∀ i < env.refs.length, i ∈ σ₂ := fun i hi =>
    h₂.mem_iff.mpr (List.mem_range.mpr hi)
  rw [sched_df_eq m₁, sched_df_eq m₂]

/-- Witness for C8: with two references, the completion orders `[1,0]`
and `[0,1]` give the same table. -/
theorem schedule_independent_df_witness :
    (pydamage_analyze_sched sampleEnv defaultArgs [1, 0]).df
      = (pydamage_analyze_sched sampleEnv defaultArgs [0, 1]).df :=
  schedule_independent_df sampleEnv defaultArgs [1, 0] [0, 1] (by decide) (by decide)

/-- Counterexample for C7: the join step of `main.py` line 139 is a plain
pandas inner join on the index.  On two frames whose row counts mismatch
it silently drops the unmatched row and yields a smaller frame — no
fatal internal-consistency error exists anywhere in the code. -/
theorem merge_mismatch_silently_drops :
    ([({ idx := 0, cols := [] } : Row), { idx := 1, cols := [] }] : DF).length
        ≠ ([({ idx := 0, cols := [] } : Row)] : DF).length
    ∧ mergeIndex [({ idx := 0, cols := [] } : Row), { idx := 1, cols := [] }]
        [({ idx := 0, cols := [] } : Row)]
      = [({ idx := 0, cols := [] } : Row)] := by
  exact ⟨by decide, rfl⟩

/-- The sample environment's Fitter labels every per-reference result
with the reference it was invoked for, whatever the arguments. -/
theorem sampleEnv_labels_ok (a : Args) : FitterLabelsOk sampleEnv a := by
  intro r fr h
  unfold tdOf at h
  simp only [sampleEnv, Option.elim] at h
  by_cases hr : r < 2
  · rw [if_pos hr] at h
    cases h
    rfl
  · rw [if_neg hr] at h
    exact Option.noConfusion h

/-- C7 (amended): the two frames merged on line 139 always agree row for
row — the Accuracy Predictor's frame is derived row-wise from the
Fitter-derived frame, so (for a well-formed Fitter and distinct
references) the inner join is 1:1 and loss-free: the final table pairs the
k-th predictor row with the k-th Fitter row and has exactly one row per
usable fit.  (The claim's "row-count mismatch is a fatal error" does not
hold: a mismatch would be silently inner-joined, but no mismatch can
occur.) -/
theorem merge_one_to_one (env : Env) (a : Args)
    (hwf : FitterLabelsOk env a) (hnd : env.refs.Nodup) :
    (pydamage_analyze env a).df
        = List.zipWith (fun l r => { idx := l.idx, cols := l.cols ++ r.cols })
            (glm_predict env
              (prepare_data env (pandas_processing (filtRes env a) a.wlen))
              glm_model_params)
            (pandas_processing (filtRes env a) a.wlen)
    ∧ (glm_predict env
          (prepare_data env (pandas_processing (filtRes env a) a.wlen))
          glm_model_params).length
        = (pandas_processing (filtRes env a) a.wlen).length
    ∧ (pydamage_analyze env a).df.length
        = (pandas_processing (filtRes env a) a.wlen).length := by
  have hidx : (glm_predict env
        (prepare_data env (pandas_processing (filtRes env a) a.wlen))
        glm_model_params).map Row.idx
      = (pandas_processing (filtRes env a) a.wlen).map Row.idx := by
    rw [glm_predict_idx, prepare_data_idx]
  have hnd' : ((pandas_processing (filtRes env a) a.wlen).map Row.idx).Nodup := by
    rw [pandas_processing_idx]
    cases hg : a.group
    · rw [filtRes_filterMap hg]
      exact fits_reference_nodup hwf hnd
    · unfold filtRes
      rw [if_pos hg]
      cases tdOf env a none <;> simp
  have hz := mergeIndex_zipWith hidx hnd'
  have hlen1 : (glm_predict env
        (prepare_data env (pandas_processing (filtRes env a) a.wlen))
        glm_model_params).length
      = (pandas_processing (filtRes env a) a.wlen).length := by
    have := congrArg List.length hidx
    simpa using this
  refine ⟨hz, hlen1, ?_⟩
  show (mergeIndex _ _).length = _
  rw [hz, List.length_zipWith, hlen1, min_self]

/-- Witness for C7 (amended): on the sample environment the final table
is the row-for-row pairing of the predictor frame with the Fitter frame,
and the three frames have equal row counts. -/
theorem merge_one_to_one_witness :
    (pydamage_analyze sampleEnv defaultArgs).df
        = List.zipWith (fun l r => { idx := l.idx, cols := l.cols ++ r.cols })
            (glm_predict sampleEnv
              (prepare_data sampleEnv
                (pandas_processing (filtRes sampleEnv defaultArgs) defaultArgs.wlen))
              glm_model_params)
            (pandas_processing (filtRes sampleEnv defaultArgs) defaultArgs.wlen)
    ∧ (glm_predict sampleEnv
          (prepare_data sampleEnv
            (pandas_processing (filtRes sampleEnv defaultArgs) defaultArgs.wlen))
          glm_model_params).length
        = (pandas_processing (filtRes sampleEnv defaultArgs) defaultArgs.wlen).length
    ∧ (pydamage_analyze sampleEnv defaultArgs).df.length
        = (pandas_processing (filtRes sampleEnv defaultArgs) defaultArgs.wlen).length :=
  merge_one_to_one sampleEnv defaultArgs (sampleEnv_labels_ok defaultArgs) (by decide)

end Pydamage
